import Mathlib

/-!
Verification of the Vapor bot repository.

Part 1 models the per-guild media playback coordinator described in the
specification (PlaybackQueue, PlaybackCoordinator, CoordinatorRegistry and
the consumption loop).  The player subsystem's source file is not present
in this snapshot of the repository, so those definitions are modelled from
the specification text, as marked on each definition.

Part 2 embeds, directly from `src/bot.py`, the ticket-panel custom_id
encode/decode pair, the ticket-close permission check, and the
`load_ticket_config` persistence helper.
-/

namespace Vapor

/-- Modelled from the spec: a Track is a resolved, playable reference plus
metadata (section 3 of the spec); the playable reference is opaque, so it is
modelled as a natural number, with the locator kept as an abstract id. -/
structure Track where
  locator : Nat
  playableRef : Nat
  deriving Repr, DecidableEq

/-- Modelled from the spec: the per-guild PlaybackCoordinator state
(section 3): a FIFO queue of pending tracks, the optional current track,
whether a transport session is present, the terminal stopped flag, and the
number of active consumption-loop tasks.  The spec keeps a boolean
running flag with the invariant that at most one loop task is active;
this model counts the active loop tasks in `loops` so that the
at-most-one-loop invariant is a provable statement rather than a built-in
assumption of the state type. -/
structure Coordinator where
  queue : List Track
  current : Option Track
  connected : Bool
  stopped : Bool
  loops : Nat
  deriving Repr, DecidableEq

/-- Modelled from the spec: the system state seen by one guild: the
CoordinatorRegistry entry for that guild (present or absent), plus a ghost
history `played` recording, in order, every track handed to
Transport.play.  The registry entry is the only process-wide mutable state
(section 4.3); the history survives coordinator teardown. -/
structure PlayerState where
  reg : Option Coordinator
  played : List Track
  deriving Repr, DecidableEq

/-- Modelled from the spec: the atomic events of the concurrency model
(section 5).  Command handlers contribute `playCmd`, `skipCmd`, `stopCmd`;
the consumption loop contributes `loopStep`; the Transport's
completion-or-error signal for the current track contributes `complete`
(with `ok = false` for a PlaybackError).  An arbitrary interleaving of
callers and the loop is an arbitrary list of these actions. -/
inductive Action where
  | playCmd (t : Track)
  | skipCmd
  | stopCmd
  | loopStep
  | complete (ok : Bool)
  deriving Repr, DecidableEq

/-- Modelled from the spec: a freshly constructed Coordinator (section 3
lifecycle): created on the first play request, with an empty queue, no
current track, a connected transport session, not stopped, and its single
consumption loop about to be started by the creating enqueue. -/
def freshCoordinator : Coordinator :=
  { queue := [], current := none, connected := true, stopped := false, loops := 0 }

/-- Modelled from the spec: `enqueue(track)` on an existing Coordinator
(section 4.2): appends to the queue and, as one atomic step, starts a
consumption loop if none is running (the spec requires check-and-spawn to
be a single atomic operation, the source's races-prone check-then-act made
atomic per the design notes). -/
def enqueueStep (c : Coordinator) (t : Track) : Coordinator :=
  { c with queue := c.queue ++ [t], loops := if c.loops = 0 then 1 else c.loops }

/-- Modelled from the spec: the play command (section 6): resolve, obtain
or create the guild's Coordinator from the Registry (`getOrCreate`,
section 4.3), connect, and enqueue the resolved track. -/
def playCmdStep (s : PlayerState) (t : Track) : PlayerState :=
  match s.reg with
  | none => { s with reg := some (enqueueStep freshCoordinator t) }
  | some c => { s with reg := some (enqueueStep c t) }

/-- Modelled from the spec: `stop()` (section 4.2): sets the terminal
stopped flag and clears the queue, and instructs Transport to stop the
in-flight track; disconnecting and deregistering happen later, when the
loop observes `stopped`.  Safe no-op when the guild has no Coordinator
(the Registry's `remove` is safe when already absent, section 4.3). -/
def stopCmdStep (s : PlayerState) : PlayerState :=
  match s.reg with
  | none => s
  | some c => { s with reg := some { c with stopped := true, queue := [] } }

/-- Modelled from the spec: `skip()` (section 4.2): instructs the active
Transport session to cut the in-flight track short; the effect reaches the
Coordinator through the ordinary completion-signal path (the same path as
a natural end of track), which is the separate `complete` action, so the
coordinator state itself is untouched here. -/
def skipCmdStep (s : PlayerState) : PlayerState := s

/-- Modelled from the spec: one scheduling opportunity of the consumption
loop (section 4.2, steps 1-4 and 7): if `stopped` is observed the loop
exits, disconnects Transport and removes the Coordinator from the
Registry; while a track is in flight, or the queue is empty, the loop
stays suspended; otherwise it dequeues the front track and instructs
Transport to play it (recorded in the `played` history), unless no session
exists, in which case the loop tears the Coordinator down
(NotConnectedError). -/
def loopStepStep (s : PlayerState) : PlayerState :=
  match s.reg with
  | none => s
  | some c =>
    if c.loops = 0 then s
    else if c.stopped then { s with reg := none }
    else
      match c.current with
      | some _ => s
      | none =>
        match c.queue with
        | [] => s
        | t :: rest =>
          if c.connected then
            { s with reg := some { c with queue := rest, current := some t },
                     played := s.played ++ [t] }
          else { s with reg := none }

/-- Modelled from the spec: Transport signals completion or error for the
current track, exactly once per play attempt (section 5).  A playback
error (`ok = false`) is logged but treated exactly like a normal end of
track: `current` is cleared and the loop keeps running (section 4.2 step
5-6, section 7). -/
def completeStep (s : PlayerState) (_ok : Bool) : PlayerState :=
  match s.reg with
  | none => s
  | some c =>
    if c.loops = 0 then s
    else
      match c.current with
      | none => s
      | some _ => { s with reg := some { c with current := none } }

/-- Modelled from the spec: the effect of one atomic event on the
per-guild system state. -/
def step (s : PlayerState) : Action → PlayerState
  | .playCmd t => playCmdStep s t
  | .skipCmd => skipCmdStep s
  | .stopCmd => stopCmdStep s
  | .loopStep => loopStepStep s
  | .complete ok => completeStep s ok

/-- Modelled from the spec: run a finite interleaving of events. -/
def run (s : PlayerState) (acts : List Action) : PlayerState :=
  acts.foldl step s

/-- Modelled from the spec: the initial state of a guild: no Coordinator
registered, nothing ever played. -/
def initState : PlayerState := { reg := none, played := [] }

/-- A state is reachable when some interleaving of events produces it from
the initial state. -/
def Reachable (s : PlayerState) : Prop := ∃ acts : List Action, run initState acts = s

/-- The loop events that drain `n` queued tracks: each track takes one
loop scheduling step (dequeue and play) followed by one completion
signal. -/
def drainTrace : Nat → List Action
  | 0 => []
  | n + 1 => Action.loopStep :: Action.complete true :: drainTrace n

/-! ## Part 2: embeddings from `src/bot.py` -/

/-- The character list of the literal "TICKET_CREATE:" used by
`setup_ticket` and `on_ready` when building a panel button's custom_id,
and by `TicketPanelView.create_ticket_callback` when checking it. -/
def ticketTagChars : List Char :=
  ['T', 'I', 'C', 'K', 'E', 'T', '_', 'C', 'R', 'E', 'A', 'T', 'E', ':']

/-- The decimal digit character for a digit value below ten, as produced
by Python's str() on an integer. -/
def digitChar (d : Nat) : Char := Char.ofNat (48 + d)

/-- Python's str() on a non-negative integer: its decimal digits, most
significant first ("0" for zero). -/
def pyStrNat (n : Nat) : List Char :=
  if n = 0 then ['0'] else ((Nat.digits 10 n).map digitChar).reverse

/-- Python's str() on an integer: a minus sign followed by the decimal
digits when negative, the decimal digits otherwise. -/
def pyStrInt (i : Int) : List Char :=
  if i < 0 then '-' :: pyStrNat i.natAbs else pyStrNat i.toNat

/-- The custom_id written by `setup_ticket` (bot.py line 646) and by the
`on_ready` re-registration (line 472): the f-string
TICKET_CREATE:{category_id}. -/
def ticketCustomId (c : Int) : List Char := ticketTagChars ++ pyStrInt c

/-- The numeric value Python's int() assigns to one digit character. -/
def pyDigitVal (c : Char) : Nat := c.toNat - 48

/-- Python's int() on a string of decimal digits: fails (ValueError) when
the string is empty or holds a non-digit, otherwise folds the digits most
significant first. -/
def pyParseNatChars (l : List Char) : Option Nat :=
  if l ≠ [] ∧ l.all Char.isDigit then
    some (l.foldl (fun a c => 10 * a + pyDigitVal c) 0)
  else none

/-- Python's int() on the strings relevant to the custom_id round trip:
an optional leading minus sign followed by decimal digits (the exact
image of str() on integers); anything else fails (ValueError). -/
def pyIntOfChars (l : List Char) : Option Int :=
  match l with
  | [] => none
  | c0 :: rest =>
    if c0 = '-' then (pyParseNatChars rest).map (fun n => -(n : Int))
    else (pyParseNatChars (c0 :: rest)).map (fun n => (n : Int))

/-- Python's s.split that keeps everything after the first colon, the
`custom_id.split(":", 1)[1]` of `create_ticket_callback` (bot.py line
437); fails (IndexError) when there is no colon. -/
def afterFirstColon : List Char → Option (List Char)
  | [] => none
  | c :: rest => if c = ':' then some rest else afterFirstColon rest

/-- `TicketPanelView.create_ticket_callback` (bot.py lines 432-443),
projected to the category id it extracts: rejects a custom_id that does
not start with "TICKET_CREATE:", then parses the text after the first
colon as an integer; `none` is the error-message path, `some c` opens the
ticket modal for category c. -/
def create_ticket_callback (custom_id : List Char) : Option Int :=
  if custom_id.take 14 = ticketTagChars then
    (afterFirstColon custom_id).bind pyIntOfChars
  else none

/-- The data of the user clicking the close button that
`TicketCloseView.close_button_callback` consults: the user id, whether
the user resolved to a guild Member, and the member's manage_channels
guild permission. -/
structure Clicker where
  id : Nat
  isMember : Bool
  manageChannels : Bool
  deriving Repr, DecidableEq

/-- The can_close condition of `close_button_callback` (bot.py lines
307-309): the clicker is the stored ticket opener, or is a guild Member
with the manage_channels permission. -/
def can_close (opener_id : Nat) (m : Clicker) : Bool :=
  (m.id == opener_id) || (m.isMember && m.manageChannels)

/-- Outcome of `channel.delete()` as seen by the callback: success,
a Forbidden error, or any other exception. -/
inductive DeleteRes where
  | ok
  | forbidden
  | otherError
  deriving Repr, DecidableEq

/-- Observable outcome of one click on the close button. -/
inductive CloseOutcome where
  | refused
  | noChannel
  | deleted
  | deleteForbidden
  | deleteFailed
  deriving Repr, DecidableEq

/-- `TicketCloseView.close_button_callback` (bot.py lines 305-337):
refuses unless can_close holds; then, after the confirmation message and
the sleep, returns without deleting when the interaction has no channel,
and otherwise attempts the channel deletion, absorbing Forbidden and
other exceptions into logged non-deleting outcomes. -/
def close_button_callback (opener_id : Nat) (m : Clicker)
    (channelExists : Bool) (d : DeleteRes) : CloseOutcome :=
  if can_close opener_id m = false then .refused
  else if channelExists = false then .noChannel
  else
    match d with
    | .ok => .deleted
    | .forbidden => .deleteForbidden
    | .otherError => .deleteFailed

/-- A JSON value as returned by Python's json.load. -/
inductive PyJson where
  | null
  | bool (b : Bool)
  | num (n : Int)
  | str (s : List Char)
  | arr (xs : List PyJson)
  | obj (kvs : List (List Char × PyJson))

/-- Whether a JSON value is a dict (a JSON object). -/
def PyJson.isDict : PyJson → Bool
  | .obj _ => true
  | _ => false

/-- What opening and json.load-ing the config file would yield: a parsed
JSON value, or an exception (unreadable file or invalid JSON). -/
inductive ReadResult where
  | ok (v : PyJson)
  | exc

/-- The filesystem state `load_ticket_config` runs against: whether
os.path.exists finds the config file, and what reading and parsing it
would produce if attempted. -/
structure FsState where
  fileExists : Bool
  readResult : ReadResult

/-- The empty Python dict. -/
def emptyDict : PyJson := .obj []

/-- `load_ticket_config` (bot.py lines 42-50): returns the empty dict
when the file does not exist; otherwise opens and parses it, returning
the parsed value, with every exception caught, logged, and turned into
the empty dict.  Totality of this Lean function models that the Python
function never lets an exception escape. -/
def load_ticket_config (fs : FsState) : PyJson :=
  if fs.fileExists = false then emptyDict
  else
    match fs.readResult with
    | .ok v => v
    | .exc => emptyDict

/-! ## Helper lemmas about the player model -/

/-- Sample tracks for concrete witnesses. -/
def t0 : Track := ⟨0, 0⟩

/-- Sample track. -/
def t1 : Track := ⟨1, 1⟩

theorem run_nil (s : PlayerState) : run s [] = s := rfl

theorem run_cons (s : PlayerState) (a : Action) (acts : List Action) :
    run s (a :: acts) = run (step s a) acts := rfl

theorem run_append (s : PlayerState) (l1 l2 : List Action) :
    run s (l1 ++ l2) = run (run s l1) l2 :=
  List.foldl_append ..

/-- Enqueue-only interleavings on a coordinator whose single loop is
already running append the tracks to the queue in call order and change
nothing else. -/
theorem run_playCmds (ts : List Track) (c : Coordinator) (h : c.loops = 1)
    (p : List Track) :
    run ⟨some c, p⟩ (ts.map Action.playCmd) =
      ⟨some { c with queue := c.queue ++ ts }, p⟩ := by
  induction ts generalizing c with
  | nil => simp [run]
  | cons t ts ih =>
    rw [List.map_cons, run_cons]
    have hstep : step ⟨some c, p⟩ (Action.playCmd t) =
        ⟨some { c with queue := c.queue ++ [t] }, p⟩ := by
      simp [step, playCmdStep, enqueueStep, h]
    rw [hstep, ih { c with queue := c.queue ++ [t] } h]
    simp

/-- Draining a queue of tracks through alternating loop scheduling and
completion signals plays exactly the queue, in order, and leaves the
coordinator idle with its loop still running. -/
theorem run_drain (q p : List Track) :
    run ⟨some { queue := q, current := none, connected := true,
                stopped := false, loops := 1 }, p⟩ (drainTrace q.length) =
      ⟨some { queue := [], current := none, connected := true,
              stopped := false, loops := 1 }, p ++ q⟩ := by
  induction q generalizing p with
  | nil => simp [drainTrace, run]
  | cons t q ih =>
    have h1 : step ⟨some { queue := t :: q, current := none, connected := true,
                           stopped := false, loops := 1 }, p⟩ Action.loopStep =
        ⟨some { queue := q, current := some t, connected := true,
                stopped := false, loops := 1 }, p ++ [t]⟩ := by
      simp [step, loopStepStep]
    have h2 : step ⟨some { queue := q, current := some t, connected := true,
                           stopped := false, loops := 1 }, p ++ [t]⟩
        (Action.complete true) =
        ⟨some { queue := q, current := none, connected := true,
                stopped := false, loops := 1 }, p ++ [t]⟩ := by
      simp [step, completeStep]
    rw [List.length_cons, drainTrace, run_cons, h1, run_cons, h2, ih (p ++ [t])]
    simp

/-! ## Claim theorems -/

/-- C1: for every sequence of enqueue calls on an idle Coordinator with a
connected Transport, the tracks are played in exactly the order in which
they were enqueued (FIFO), with no priority and no reordering: running
the play commands for `ts` and then letting the loop drain yields the
play history `ts` itself. -/
theorem c1_enqueue_order_is_play_order (ts : List Track) :
    (run initState (ts.map Action.playCmd ++ drainTrace ts.length)).played = ts := by
  cases ts with
  | nil => rfl
  | cons t ts =>
    rw [run_append, List.map_cons, run_cons]
    have hstep : step initState (Action.playCmd t) =
        ⟨some { queue := [t], current := none, connected := true,
                stopped := false, loops := 1 }, []⟩ := rfl
    rw [hstep, run_playCmds ts _ rfl []]
    have : ([t] : List Track) ++ ts = t :: ts := rfl
    simp only [this]
    rw [show (t :: ts).length = (t :: ts).length from rfl, run_drain (t :: ts) []]
    simp

/-- C7: stop() is idempotent: for every state, a second stop() call
leaves the Coordinator, its queue, the Transport session and the
Registry entry in exactly the state produced by the first call (full
state equality, including the safe no-op when the guild has no
Coordinator registered). -/
theorem c7_stop_idempotent (s : PlayerState) :
    step (step s Action.stopCmd) Action.stopCmd = step s Action.stopCmd := by
  rcases s with ⟨reg, p⟩
  cases reg <;> simp [step, stopCmdStep]

/-- The loop-count invariant: every registered Coordinator has exactly
one active consumption-loop task. -/
def LoopsInv (s : PlayerState) : Prop := ∀ c, s.reg = some c → c.loops = 1

theorem step_loopsInv (s : PlayerState) (a : Action) (h : LoopsInv s) :
    LoopsInv (step s a) := by
  rcases s with ⟨reg, p⟩
  cases a with
  | playCmd t =>
    intro c2 hc2
    cases hreg : reg with
    | none =>
      simp [step, playCmdStep, hreg] at hc2
      simp [← hc2, enqueueStep, freshCoordinator]
    | some c =>
      have hl := h c (by rw [hreg])
      simp [step, playCmdStep, hreg] at hc2
      simp [← hc2, enqueueStep, hl]
  | skipCmd => exact h
  | stopCmd =>
    intro c2 hc2
    cases hreg : reg with
    | none => rw [hreg] at hc2; simp [step, stopCmdStep] at hc2
    | some c =>
      have hl := h c (by rw [hreg])
      simp [step, stopCmdStep, hreg] at hc2
      simp [← hc2, hl]
  | loopStep =>
    intro c2 hc2
    cases hreg : reg with
    | none => rw [hreg] at hc2; simp [step, loopStepStep] at hc2
    | some c =>
      have hl := h c (by rw [hreg])
      simp only [step, loopStepStep, hreg] at hc2
      rw [hl] at hc2
      simp only [if_neg (by omega : ¬ (1 : Nat) = 0)] at hc2
      by_cases hst : c.stopped
      · simp [hst] at hc2
      · simp only [hst, if_neg (by simp : ¬ (false = true))] at hc2
        cases hcur : c.current with
        | some t => simp [hcur] at hc2; simp [← hc2, hl]
        | none =>
          cases hq : c.queue with
          | nil => simp [hcur, hq] at hc2; simp [← hc2, hl]
          | cons t rest =>
            simp only [hcur, hq] at hc2
            by_cases hco : c.connected
            · simp [hco] at hc2; simp [← hc2, hl]
            · simp [hco] at hc2
  | complete ok =>
    intro c2 hc2
    cases hreg : reg with
    | none => rw [hreg] at hc2; simp [step, completeStep] at hc2
    | some c =>
      have hl := h c (by rw [hreg])
      simp only [step, completeStep, hreg] at hc2
      rw [hl] at hc2
      simp only [if_neg (by omega : ¬ (1 : Nat) = 0)] at hc2
      cases hcur : c.current with
      | none => simp [hcur] at hc2; simp [← hc2, hl]
      | some t => simp [hcur] at hc2; simp [← hc2, hl]

theorem run_loopsInv (s : PlayerState) (acts : List Action) (h : LoopsInv s) :
    LoopsInv (run s acts) := by
  induction acts generalizing s with
  | nil => exact h
  | cons a acts ih => exact ih (step s a) (step_loopsInv s a h)

theorem reachable_loopsInv (s : PlayerState) (h : Reachable s) : LoopsInv s := by
  obtain ⟨acts, rfl⟩ := h
  exact run_loopsInv initState acts (by intro c hc; simp [initState] at hc)

/-- C2: in every reachable state, at most one consumption loop is active
for the guild's Coordinator, even when enqueue is invoked concurrently
any number of times before any loop has started (any interleaving of
play commands is a reachable state, and enqueue's ensure-loop is a
single atomic step, so no execution ever holds two loops). -/
theorem c2_at_most_one_loop (s : PlayerState) (hs : Reachable s)
    (c : Coordinator) (hc : s.reg = some c) : c.loops ≤ 1 :=
  Nat.le_of_eq (reachable_loopsInv s hs c hc)

/-- Witness for C2 at the state reached by two racing enqueues before any
loop step has run. -/
theorem c2_at_most_one_loop_witness :
    (Coordinator.mk [t0, t1] none true false 1).loops ≤ 1 :=
  c2_at_most_one_loop
    (run initState [Action.playCmd t0, Action.playCmd t1])
    ⟨[Action.playCmd t0, Action.playCmd t1], rfl⟩
    (Coordinator.mk [t0, t1] none true false 1) rfl

/-- C3: stop() at any reachable state empties the Coordinator's queue
and marks it stopped; the loop's next scheduling step then removes the
Coordinator from the Registry; and a subsequent play request for the
guild constructs a fresh Coordinator that starts from an empty queue
(holding only the newly enqueued track and not stopped), never reusing
the destroyed one. -/
theorem c3_stop_destroys_play_recreates (s : PlayerState) (c : Coordinator)
    (t : Track) (hs : Reachable s) (hc : s.reg = some c) :
    (step s Action.stopCmd).reg = some { c with stopped := true, queue := [] } ∧
    (step (step s Action.stopCmd) Action.loopStep).reg = none ∧
    (step (step (step s Action.stopCmd) Action.loopStep) (Action.playCmd t)).reg =
      some { queue := [t], current := none, connected := true,
             stopped := false, loops := 1 } := by
  have hl : c.loops = 1 := reachable_loopsInv s hs c hc
  rcases s with ⟨reg, p⟩
  simp only [PlayerState.mk.injEq] at hc
  subst hc
  refine ⟨by simp [step, stopCmdStep], ?_, ?_⟩
  · simp [step, stopCmdStep, loopStepStep, hl]
  · simp [step, stopCmdStep, loopStepStep, playCmdStep, enqueueStep,
          freshCoordinator, hl]

/-- Witness for C3 at the state holding one enqueued track. -/
theorem c3_stop_destroys_play_recreates_witness :
    (step (run initState [Action.playCmd t0]) Action.stopCmd).reg =
      some { queue := [], current := none, connected := true,
             stopped := true, loops := 1 } ∧
    (step (step (run initState [Action.playCmd t0]) Action.stopCmd)
        Action.loopStep).reg = none ∧
    (step (step (step (run initState [Action.playCmd t0]) Action.stopCmd)
        Action.loopStep) (Action.playCmd t1)).reg =
      some { queue := [t1], current := none, connected := true,
             stopped := false, loops := 1 } :=
  c3_stop_destroys_play_recreates (run initState [Action.playCmd t0])
    (Coordinator.mk [t0] none true false 1) t1
    ⟨[Action.playCmd t0], rfl⟩ rfl

/-- One step from a state whose Coordinator is stopped: nothing is
played, and the Coordinator either stays registered and stopped or is
torn down by the loop. -/
theorem stopped_one_step (s : PlayerState) (c : Coordinator) (a : Action)
    (hc : s.reg = some c) (hst : c.stopped = true) :
    (step s a).played = s.played ∧
    ((step s a).reg = none ∨
      ∃ c2, (step s a).reg = some c2 ∧ c2.stopped = true) := by
  rcases s with ⟨reg, p⟩
  simp only [PlayerState.mk.injEq] at hc
  subst hc
  cases a with
  | playCmd t =>
    exact ⟨by simp [step, playCmdStep], Or.inr ⟨enqueueStep c t, by
      simp [step, playCmdStep], by simp [enqueueStep, hst]⟩⟩
  | skipCmd => exact ⟨rfl, Or.inr ⟨c, rfl, hst⟩⟩
  | stopCmd =>
    exact ⟨by simp [step, stopCmdStep], Or.inr ⟨{ c with stopped := true, queue := [] },
      by simp [step, stopCmdStep], rfl⟩⟩
  | loopStep =>
    by_cases hlz : c.loops = 0
    · refine ⟨by simp [step, loopStepStep, hlz], Or.inr ⟨c, by simp [step, loopStepStep, hlz], hst⟩⟩
    · refine ⟨by simp [step, loopStepStep, hlz, hst], Or.inl (by simp [step, loopStepStep, hlz, hst])⟩
  | complete ok =>
    by_cases hlz : c.loops = 0
    · exact ⟨by simp [step, completeStep, hlz], Or.inr ⟨c, by simp [step, completeStep, hlz], hst⟩⟩
    · cases hcur : c.current with
      | none =>
        exact ⟨by simp [step, completeStep, hlz, hcur],
          Or.inr ⟨c, by simp [step, completeStep, hlz, hcur], hst⟩⟩
      | some t =>
        exact ⟨by simp [step, completeStep, hlz, hcur],
          Or.inr ⟨{ c with current := none },
            by simp [step, completeStep, hlz, hcur], by simp [hst]⟩⟩

/-- C4: once the stopped flag of a Coordinator is observed true, no
further Track is ever dequeued or played, regardless of enqueue calls
racing with stop, and the Stopped state is terminal: along any
interleaving of further events during which the Coordinator remains
registered, the play history never grows and the Coordinator is still
stopped (the only exit from Stopped is the loop tearing the Coordinator
down, after which it no longer exists). -/
theorem c4_stopped_is_terminal (s : PlayerState) (c : Coordinator)
    (acts : List Action) (hc : s.reg = some c) (hst : c.stopped = true)
    (hlive : ∀ i, i ≤ acts.length → (run s (acts.take i)).reg ≠ none) :
    (run s acts).played = s.played ∧
    ∃ c2, (run s acts).reg = some c2 ∧ c2.stopped = true := by
  induction acts generalizing s c with
  | nil => exact ⟨rfl, c, hc, hst⟩
  | cons a acts ih =>
    have hone := stopped_one_step s c a hc hst
    have hmid : (step s a).reg ≠ none := by
      have h1 := hlive 1 (by simp)
      simpa [run] using h1
    rcases hone.2 with hnone | ⟨c2, hc2, hst2⟩
    · exact absurd hnone hmid
    · have hlive2 : ∀ i, i ≤ acts.length →
          (run (step s a) (acts.take i)).reg ≠ none := by
        intro i hi
        have := hlive (i + 1) (by simpa using Nat.succ_le_succ hi)
        simpa [List.take_succ_cons, run] using this
      have IH := ih (step s a) c2 hc2 hst2 hlive2
      exact ⟨by rw [run_cons, IH.1, hone.1], IH.2⟩

/-- Witness for C4: a stop immediately after one enqueue, with a racing
enqueue afterwards; the racing track is accepted into the queue but the
play history stays empty and the Coordinator stays stopped. -/
theorem c4_stopped_is_terminal_witness :
    (run (run initState [Action.playCmd t0, Action.stopCmd])
        [Action.playCmd t1]).played =
      (run initState [Action.playCmd t0, Action.stopCmd]).played ∧
    ∃ c2, (run (run initState [Action.playCmd t0, Action.stopCmd])
        [Action.playCmd t1]).reg = some c2 ∧ c2.stopped = true :=
  c4_stopped_is_terminal (run initState [Action.playCmd t0, Action.stopCmd])
    (Coordinator.mk [] none true true 1) [Action.playCmd t1] rfl rfl
    (by
      intro i hi
      simp only [List.length_cons, List.length_nil] at hi
      have hcases : i = 0 ∨ i = 1 := by omega
      rcases hcases with rfl | rfl <;> decide)

/-- C5: if skip() is called while track `a` is current and track `b` is
queued next, then after the skip-triggered completion signal and the next
loop scheduling step, `b` is current, `a` has not been replayed (the play
history grows by exactly `b`), and the pending tracks after `b` keep
their order (skip only advances past current, never reorders the
queue). -/
theorem c5_skip_advances_to_next (s : PlayerState) (c : Coordinator)
    (a b : Track) (rest : List Track) (hc : s.reg = some c)
    (hcur : c.current = some a) (hq : c.queue = b :: rest)
    (hst : c.stopped = false) (hl : c.loops = 1) (hcon : c.connected = true) :
    (run s [Action.skipCmd, Action.complete true, Action.loopStep]).reg =
      some { c with current := some b, queue := rest } ∧
    (run s [Action.skipCmd, Action.complete true, Action.loopStep]).played =
      s.played ++ [b] := by
  rcases s with ⟨reg, p⟩
  simp only [PlayerState.mk.injEq] at hc
  subst hc
  rcases c with ⟨q, cur, conn, stpd, lps⟩
  simp only at hcur hq hst hl hcon
  subst hcur hq hst hl hcon
  constructor <;>
    simp [run, step, skipCmdStep, completeStep, loopStepStep]

/-- Witness for C5: tracks t0 (current) and t1 (queued next); skipping
t0 makes t1 current with nothing replayed. -/
theorem c5_skip_advances_to_next_witness :
    (run (run initState [Action.playCmd t0, Action.playCmd t1, Action.loopStep])
        [Action.skipCmd, Action.complete true, Action.loopStep]).reg =
      some { queue := [], current := some t1, connected := true,
             stopped := false, loops := 1 } ∧
    (run (run initState [Action.playCmd t0, Action.playCmd t1, Action.loopStep])
        [Action.skipCmd, Action.complete true, Action.loopStep]).played =
      (run initState [Action.playCmd t0, Action.playCmd t1,
        Action.loopStep]).played ++ [t1] :=
  c5_skip_advances_to_next
    (run initState [Action.playCmd t0, Action.playCmd t1, Action.loopStep])
    (Coordinator.mk [t1] (some t0) true false 1) t0 t1 []
    rfl rfl rfl rfl rfl rfl

/-- C6: a PlaybackError signaled by Transport for the current track does
not terminate the consumption loop: the track is treated as ended, the
loop task count is still one, and the next queued track begins playing
with the rest of the queue unchanged. -/
theorem c6_playback_error_absorbed (s : PlayerState) (c : Coordinator)
    (a b : Track) (rest : List Track) (hc : s.reg = some c)
    (hcur : c.current = some a) (hq : c.queue = b :: rest)
    (hst : c.stopped = false) (hl : c.loops = 1) (hcon : c.connected = true) :
    ∃ c2, (run s [Action.complete false, Action.loopStep]).reg = some c2 ∧
      c2.loops = 1 ∧ c2.current = some b ∧ c2.queue = rest ∧
      (run s [Action.complete false, Action.loopStep]).played =
        s.played ++ [b] := by
  rcases s with ⟨reg, p⟩
  simp only [PlayerState.mk.injEq] at hc
  subst hc
  rcases c with ⟨q, cur, conn, stpd, lps⟩
  simp only at hcur hq hst hl hcon
  subst hcur hq hst hl hcon
  exact ⟨{ queue := rest, current := some b, connected := true,
           stopped := false, loops := 1 },
    by simp [run, step, completeStep, loopStepStep], rfl, rfl, rfl,
    by simp [run, step, completeStep, loopStepStep]⟩

/-- Witness for C6: a playback error while t0 is current with t1 queued;
the loop keeps running and t1 begins playing. -/
theorem c6_playback_error_absorbed_witness :
    ∃ c2, (run (run initState [Action.playCmd t0, Action.playCmd t1,
        Action.loopStep]) [Action.complete false, Action.loopStep]).reg =
        some c2 ∧
      c2.loops = 1 ∧ c2.current = some t1 ∧ c2.queue = [] ∧
      (run (run initState [Action.playCmd t0, Action.playCmd t1,
          Action.loopStep]) [Action.complete false, Action.loopStep]).played =
        (run initState [Action.playCmd t0, Action.playCmd t1,
          Action.loopStep]).played ++ [t1] :=
  c6_playback_error_absorbed
    (run initState [Action.playCmd t0, Action.playCmd t1, Action.loopStep])
    (Coordinator.mk [t1] (some t0) true false 1) t0 t1 []
    rfl rfl rfl rfl rfl rfl

/-! ## Helper lemmas for the custom_id round trip -/

theorem digitChar_toNat (d : Nat) (h : d < 10) : (digitChar d).toNat = 48 + d := by
  interval_cases d <;> decide

theorem digitChar_isDigit (d : Nat) (h : d < 10) : (digitChar d).isDigit = true := by
  interval_cases d <;> decide

/-- Folding Python's int() digit step over a most-significant-first digit
string recovers the base-10 value of the digits. -/
theorem foldl_digitChars (L : List Nat) (hL : ∀ d ∈ L, d < 10) (a : Nat) :
    ((L.map digitChar).reverse).foldl (fun x c => 10 * x + pyDigitVal c) a =
      a * 10 ^ L.length + Nat.ofDigits 10 L := by
  induction L generalizing a with
  | nil => simp
  | cons d L ih =>
    have hd : d < 10 := hL d (List.mem_cons_self d L)
    have hL2 : ∀ x ∈ L, x < 10 := fun x hx => hL x (List.mem_cons_of_mem d hx)
    rw [List.map_cons, List.reverse_cons, List.foldl_append, ih hL2 a]
    simp only [List.foldl_cons, List.foldl_nil]
    have hval : pyDigitVal (digitChar d) = d := by
      unfold pyDigitVal
      rw [digitChar_toNat d hd]
      omega
    rw [hval, Nat.ofDigits_cons, List.length_cons, pow_succ]
    ring

theorem pyStrNat_all_digits (n : Nat) : (pyStrNat n).all Char.isDigit = true := by
  by_cases hn : n = 0
  · subst hn; decide
  · unfold pyStrNat
    rw [if_neg hn]
    rw [List.all_eq_true]
    intro c hc
    rw [List.mem_reverse, List.mem_map] at hc
    obtain ⟨d, hd, rfl⟩ := hc
    exact digitChar_isDigit d (Nat.digits_lt_base (by norm_num) hd)

theorem pyStrNat_ne_nil (n : Nat) : pyStrNat n ≠ [] := by
  by_cases hn : n = 0
  · subst hn; decide
  · unfold pyStrNat
    rw [if_neg hn]
    simp [Nat.digits_ne_nil_iff_ne_zero.mpr hn]

/-- Parsing the decimal rendering of a natural number recovers it. -/
theorem pyParseNatChars_pyStrNat (n : Nat) :
    pyParseNatChars (pyStrNat n) = some n := by
  by_cases hn : n = 0
  · subst hn; decide
  · unfold pyParseNatChars
    rw [if_pos ⟨pyStrNat_ne_nil n, pyStrNat_all_digits n⟩]
    unfold pyStrNat
    rw [if_neg hn]
    rw [foldl_digitChars (Nat.digits 10 n)
      (fun d hd => Nat.digits_lt_base (by norm_num) hd) 0]
    simp [Nat.ofDigits_digits]

theorem pyIntOfChars_pyStrNat (n : Nat) :
    pyIntOfChars (pyStrNat n) = some (n : Int) := by
  obtain ⟨c0, cs, hcons⟩ : ∃ c0 cs, pyStrNat n = c0 :: cs := by
    cases h : pyStrNat n with
    | nil => exact absurd h (pyStrNat_ne_nil n)
    | cons c0 cs => exact ⟨c0, cs, rfl⟩
  have hdig : c0.isDigit = true := by
    have := pyStrNat_all_digits n
    rw [hcons, List.all_cons, Bool.and_eq_true] at this
    exact this.1
  have hne : ¬ c0 = '-' := by
    intro h
    rw [h] at hdig
    exact absurd hdig (by decide)
  rw [hcons]
  simp only [pyIntOfChars, if_neg hne]
  rw [← hcons, pyParseNatChars_pyStrNat]
  rfl

/-- Parsing the Python str() rendering of an integer recovers it. -/
theorem pyIntOfChars_pyStrInt (i : Int) :
    pyIntOfChars (pyStrInt i) = some i := by
  unfold pyStrInt
  by_cases hi : i < 0
  · rw [if_pos hi]
    show (pyParseNatChars (pyStrNat i.natAbs)).map (fun n => -(n : Int)) = some i
    rw [pyParseNatChars_pyStrNat]
    have h2 : -((i.natAbs : Int)) = i := by omega
    show some (-((i.natAbs : Int))) = some i
    rw [h2]
  · rw [if_neg hi, pyIntOfChars_pyStrNat]
    congr 1
    omega

/-- C8: for every integer category id, the custom_id
TICKET_CREATE:{category_id} written by setup_ticket and the on_ready
re-registration is parsed back by TicketPanelView.create_ticket_callback
to exactly that id, so the ticket modal is always opened for the
configured category (encode/decode round trip). -/
theorem c8_custom_id_round_trip (cid : Int) :
    create_ticket_callback (ticketCustomId cid) = some cid := by
  unfold create_ticket_callback ticketCustomId
  have htake : (ticketTagChars ++ pyStrInt cid).take 14 = ticketTagChars := by
    have hlen : ticketTagChars.length = 14 := rfl
    rw [← hlen, List.take_left]
  rw [if_pos htake]
  have hcolon : afterFirstColon (ticketTagChars ++ pyStrInt cid) =
      some (pyStrInt cid) := by
    simp [ticketTagChars, afterFirstColon]
  rw [hcolon]
  simp [pyIntOfChars_pyStrInt]

/-- C9: TicketCloseView.close_button_callback deletes the ticket channel
only when the clicking user is the ticket opener (matching the stored
ticket_opener_id) or a guild member with the manage_channels permission;
for every other user it takes the refusal path and the channel is not
deleted. -/
theorem c9_close_only_opener_or_staff (opener : Nat) (m : Clicker)
    (ch : Bool) (d : DeleteRes) :
    (close_button_callback opener m ch d = CloseOutcome.deleted →
      (m.id = opener ∨ (m.isMember = true ∧ m.manageChannels = true))) ∧
    (¬(m.id = opener ∨ (m.isMember = true ∧ m.manageChannels = true)) →
      close_button_callback opener m ch d = CloseOutcome.refused) := by
  have hiff : can_close opener m = true ↔
      (m.id = opener ∨ (m.isMember = true ∧ m.manageChannels = true)) := by
    simp [can_close]
  constructor
  · intro hdel
    rw [← hiff]
    by_contra hfc
    have hfalse : can_close opener m = false := by
      cases h : can_close opener m
      · rfl
      · exact absurd h hfc
    simp [close_button_callback, hfalse] at hdel
  · intro hnot
    rw [← hiff] at hnot
    have hfalse : can_close opener m = false := by
      cases h : can_close opener m
      · rfl
      · exact absurd h hnot
    simp [close_button_callback, hfalse]

/-- Witness for C9: a guild member who is neither the opener nor holds
manage_channels is refused. -/
theorem c9_close_only_opener_or_staff_witness :
    close_button_callback 5 ⟨7, true, false⟩ true DeleteRes.ok =
      CloseOutcome.refused :=
  (c9_close_only_opener_or_staff 5 ⟨7, true, false⟩ true DeleteRes.ok).2
    (by decide)

/-- C10 counterexample: the claim that load_ticket_config returns a dict
for every filesystem state fails on a config file holding valid JSON
that is not an object: on a file parsing to the JSON list [] the function
returns that list, not a dict. -/
theorem c10_counterexample_not_always_dict :
    (load_ticket_config ⟨true, ReadResult.ok (PyJson.arr [])⟩).isDict = false :=
  rfl

/-- C10 (amended): load_ticket_config is total (the Lean function models
that every exception is caught) and returns the empty dict when the
config file does not exist or cannot be read or parsed as JSON; on a
successful parse it returns the parsed JSON value itself, which is a
dict exactly when the file holds a JSON object. -/
theorem c10_total_with_empty_default (fs : FsState) :
    (fs.fileExists = false → load_ticket_config fs = emptyDict) ∧
    (fs.readResult = ReadResult.exc → load_ticket_config fs = emptyDict) ∧
    (∀ v, fs.fileExists = true → fs.readResult = ReadResult.ok v →
      load_ticket_config fs = v) := by
  rcases fs with ⟨fe, rr⟩
  refine ⟨?_, ?_, ?_⟩
  · intro h
    simp only at h
    subst h
    rfl
  · intro h
    simp only at h
    subst h
    cases fe <;> rfl
  · intro v hfe hrr
    simp only at hfe hrr
    subst hfe
    subst hrr
    rfl

/-- Witness for C10 (amended): a missing config file yields the empty
dict. -/
theorem c10_total_with_empty_default_witness :
    load_ticket_config ⟨false, ReadResult.exc⟩ = emptyDict :=
  (c10_total_with_empty_default ⟨false, ReadResult.exc⟩).1 rfl

end Vapor
